import Mathlib

/-!
Verification of the `AsyncRateLimiter` sliding-window admission-control
component of the data-for-seo repository.

The repository contains two implementations of the class:

* `src/data_for_seo/tools/rate_limiter.py` — semaphore + asyncio.Lock variant
  (here: namespace `RateLimiter`);
* `src/data_for_seo/tools/dataforseo_client.py` — plain asyncio.Lock variant
  (here: namespace `ClientLimiter`).

Timestamps (Python `datetime` values, compared by subtraction in seconds) are
modelled as rationals; `max_requests` and `time_window` (Python ints) as
integers.  Every `acquire()` call is serialized in both sources — in
`rate_limiter.py` the whole body after the semaphore runs inside
`async with self._lock` (including the sleep, see `RateLimiter.acquireTrace`),
and in `dataforseo_client.py` the whole body runs inside
`async with self._lock` — so a sequential state-transition semantics is
faithful.  The clock readings taken by a call (`now` at entry, `now2` after the
optional sleep) are passed as explicit arguments; the reachability relations
constrain them exactly as the runtime does (monotone clock, `asyncio.sleep d`
suspends for at least `d`).
-/

/-- State of one `AsyncRateLimiter` instance: the fields `max_requests`,
`time_window` and `requests` shared by the two source classes.  The semaphore
of `rate_limiter.py` is not part of the state: within every completed
`acquire()` call it is acquired and released a matching number of times, so
between calls its value is always `max_requests` (its effect — blocking forever
when `max_requests = 0` — is modelled in `RateLimiter.acquire`). -/
structure LimiterState where
  maxRequests : ℤ
  timeWindow  : ℤ
  requests    : List ℚ
deriving DecidableEq

/-- Python's built-in `min` on a list, as used by `min(self.requests)` in
`dataforseo_client.py`; `none` models the `ValueError` raised on an empty
sequence. -/
def pyMin : List ℚ → Option ℚ
  | [] => none
  | x :: xs =>
    match pyMin xs with
    | none => some x
    | some m => some (min x m)

/-- Result of one `acquire()` call.

* `ok s' slept` — the call returned, leaving the log in state `s'`;
  `slept = some d` records that the call suspended in `asyncio.sleep d`,
  `slept = none` that it returned without sleeping.
* `blocked` — the call never returns (suspends forever).
* `raised` — the call raises an uncaught exception. -/
inductive AcqOutcome
  | ok (s : LimiterState) (slept : Option ℚ)
  | blocked
  | raised
deriving DecidableEq

/-- Result of constructing an `AsyncRateLimiter`; `valueError` models the
`ValueError` that `asyncio.Semaphore` raises for a negative initial value. -/
inductive InitResult
  | ok (s : LimiterState)
  | valueError
deriving DecidableEq

/-- The timestamps of `s.requests` lying strictly inside the trailing
`time_window` of the instant `now` (age strictly less than `time_window`). -/
def withinWindow (s : LimiterState) (now : ℚ) : List ℚ :=
  s.requests.filter fun t => decide (now - (s.timeWindow : ℚ) < t)

namespace RateLimiter

/-- `AsyncRateLimiter.__init__` of `rate_limiter.py` (lines 12–23): stores the
two numbers and an empty list unchecked, and builds `Semaphore(max_requests)`,
which raises `ValueError` when `max_requests < 0`.  There is no validation of
`max_requests ≤ 0` or `time_window ≤ 0` and no `InvalidConfiguration`
exception anywhere in the source. -/
def init (maxRequests timeWindow : ℤ) : InitResult :=
  if maxRequests < 0 then InitResult.valueError
  else InitResult.ok ⟨maxRequests, timeWindow, []⟩

/-- `AsyncRateLimiter.acquire` of `rate_limiter.py` (lines 25–53).
`now` is the clock read after entering the lock, `now2` the refreshed clock
read after the sleep (used only on the sleeping path).  With
`max_requests ≤ 0` the initial `await self.semaphore.acquire()` on a
zero-permit semaphore never completes, so the call blocks forever.  Otherwise:
prune entries `≤ now - time_window`; if the pruned log has reached
`max_requests`, read `self.requests[0]`, compute
`sleep_time = time_window - (now - oldest)` and, when positive, sleep (holding
the lock, releasing only the semaphore), re-prune with the refreshed clock and
fall through; finally append the current clock reading unconditionally. -/
def acquire (s : LimiterState) (now now2 : ℚ) : AcqOutcome :=
  if s.maxRequests ≤ 0 then AcqOutcome.blocked
  else
    let cutoff := now - (s.timeWindow : ℚ)
    let pruned := s.requests.filter fun t => decide (cutoff < t)
    if s.maxRequests ≤ (pruned.length : ℤ) then
      match pruned.head? with
      | none => AcqOutcome.raised
      | some oldest =>
        let sleepTime := (s.timeWindow : ℚ) - (now - oldest)
        if 0 < sleepTime then
          let cutoff2 := now2 - (s.timeWindow : ℚ)
          let pruned2 := pruned.filter fun t => decide (cutoff2 < t)
          AcqOutcome.ok ⟨s.maxRequests, s.timeWindow, pruned2 ++ [now2]⟩ (some sleepTime)
        else
          AcqOutcome.ok ⟨s.maxRequests, s.timeWindow, pruned ++ [now]⟩ none
    else
      AcqOutcome.ok ⟨s.maxRequests, s.timeWindow, pruned ++ [now]⟩ none

/-- `AsyncRateLimiter.get_current_usage` of `rate_limiter.py` (lines 55–60):
the length of `[t for t in self.requests if t > now - time_window]`. -/
def get_current_usage (s : LimiterState) (now : ℚ) : ℤ :=
  ((s.requests.filter fun t => decide (now - (s.timeWindow : ℚ) < t)).length : ℤ)

/-- `get_current_usage` together with the state the method leaves behind: the
method binds the filtered list to a local `valid_requests` and performs no
assignment to `self`, so the state component is the unchanged receiver. -/
def get_current_usage_run (s : LimiterState) (now : ℚ) : ℤ × LimiterState :=
  (get_current_usage s now, s)

/-- `AsyncRateLimiter.get_time_until_next_slot` of `rate_limiter.py`
(lines 62–70): compares the raw stored log length (not the in-window count)
with `max_requests`, and on the full branch reads `self.requests[0]`; `none`
models the `IndexError` that indexing an empty list would raise. -/
def get_time_until_next_slot (s : LimiterState) (now : ℚ) : Option ℚ :=
  if (s.requests.length : ℤ) < s.maxRequests then some 0
  else
    match s.requests.head? with
    | none => none
    | some oldest => some (max 0 ((s.timeWindow : ℚ) - (now - oldest)))

/-- `get_time_until_next_slot` together with the state the method leaves
behind: the method performs no assignment to `self`. -/
def get_time_until_next_slot_run (s : LimiterState) (now : ℚ) : Option ℚ × LimiterState :=
  (get_time_until_next_slot s now, s)

end RateLimiter

/-- The primitive concurrency events performed by
`RateLimiter.acquire` in source order: operations on `self.semaphore`, on the
asyncio lock `self._lock` guarding `self.requests`, the suspension
`asyncio.sleep`, and the final `self.requests.append`. -/
inductive RLEvent
  | semAcquire
  | semRelease
  | lockAcquire
  | lockRelease
  | sleep (d : ℚ)
  | append (t : ℚ)
deriving DecidableEq

/-- Number of lock acquisitions minus releases in an event list: the depth of
`self._lock` ownership after executing the events. -/
def lockDepth (evs : List RLEvent) : ℤ :=
  ((evs.count RLEvent.lockAcquire : ℤ) - (evs.count RLEvent.lockRelease : ℤ))

namespace RateLimiter

/-- The event trace of one `acquire()` call of `rate_limiter.py`, transcribed
from the statement order of lines 25–53: `await self.semaphore.acquire()`;
`async with self._lock` entry; on the at-capacity path with positive
`sleep_time`, `self.semaphore.release()`, `await asyncio.sleep(sleep_time)`
and `await self.semaphore.acquire()` — all inside the `async with` block, whose
exit (`lockRelease`) only comes after the append; finally
`self.semaphore.release()`.  With `max_requests ≤ 0` the zero-permit semaphore
never grants, so no event completes; on the (unreachable with a nonempty
pruned log) `IndexError` path the `async with` releases the lock on unwind. -/
def acquireTrace (s : LimiterState) (now now2 : ℚ) : List RLEvent :=
  if s.maxRequests ≤ 0 then []
  else
    let cutoff := now - (s.timeWindow : ℚ)
    let pruned := s.requests.filter fun t => decide (cutoff < t)
    [RLEvent.semAcquire, RLEvent.lockAcquire] ++
      (if s.maxRequests ≤ (pruned.length : ℤ) then
        match pruned.head? with
        | none => [RLEvent.lockRelease]
        | some oldest =>
          let sleepTime := (s.timeWindow : ℚ) - (now - oldest)
          if 0 < sleepTime then
            [RLEvent.semRelease, RLEvent.sleep sleepTime, RLEvent.semAcquire,
             RLEvent.append now2, RLEvent.lockRelease, RLEvent.semRelease]
          else
            [RLEvent.append now, RLEvent.lockRelease, RLEvent.semRelease]
      else
        [RLEvent.append now, RLEvent.lockRelease, RLEvent.semRelease])

end RateLimiter

namespace ClientLimiter

/-- `AsyncRateLimiter.__init__` of `dataforseo_client.py` (lines 39–49): it
stores the two numbers and an empty list and creates a lock.  It performs no
validation whatsoever and can raise nothing. -/
def init (maxRequests timeWindow : ℤ) : LimiterState :=
  ⟨maxRequests, timeWindow, []⟩

/-- `AsyncRateLimiter.acquire` of `dataforseo_client.py` (lines 51–72), whose
whole body runs inside `async with self._lock`: prune entries with
`now - t < time_window` false; if the pruned log has reached `max_requests`,
take `min(self.requests)` (a `ValueError` on the empty list, modelled by
`raised`), compute `wait_time` and, when positive, `await asyncio.sleep`
followed by `return await self.acquire()` — a recursive call that then awaits
the non-reentrant `asyncio.Lock` the task itself still holds, so the call
never returns (`blocked`); otherwise append `now`. -/
def acquire (s : LimiterState) (now : ℚ) : AcqOutcome :=
  let pruned := s.requests.filter fun t => decide (now - t < (s.timeWindow : ℚ))
  if s.maxRequests ≤ (pruned.length : ℤ) then
    match pyMin pruned with
    | none => AcqOutcome.raised
    | some oldest =>
      let waitTime := (s.timeWindow : ℚ) - (now - oldest)
      if 0 < waitTime then AcqOutcome.blocked
      else AcqOutcome.ok ⟨s.maxRequests, s.timeWindow, pruned ++ [now]⟩ none
  else
    AcqOutcome.ok ⟨s.maxRequests, s.timeWindow, pruned ++ [now]⟩ none

end ClientLimiter

/-- Limiter states reachable in `rate_limiter.py`, paired with a clock value
`t` at or after the state's last mutation (all log entries are `≤ t`).
`init` is a validly constructed limiter (both configuration values positive);
`step` is one completed `acquire()` call with entry clock `now ≥ t` and
post-sleep clock `now2`, where `asyncio.sleep d` suspends for at least `d`. -/
inductive RLReach : LimiterState → ℚ → Prop
  | init (m w : ℤ) (t0 : ℚ) : 0 < m → 0 < w → RLReach ⟨m, w, []⟩ t0
  | step (s : LimiterState) (t now now2 : ℚ) (s' : LimiterState) (sl : Option ℚ) :
      RLReach s t → t ≤ now → now ≤ now2 →
      (∀ d, sl = some d → now + d ≤ now2) →
      RateLimiter.acquire s now now2 = AcqOutcome.ok s' sl →
      RLReach s' now2

/-- Limiter states reachable in `dataforseo_client.py` from a validly
constructed instance by completed `acquire()` calls. -/
inductive DFSReach : LimiterState → Prop
  | init (m w : ℤ) : 0 < m → 0 < w → DFSReach ⟨m, w, []⟩
  | step (s : LimiterState) (now : ℚ) (s' : LimiterState) (sl : Option ℚ) :
      DFSReach s → ClientLimiter.acquire s now = AcqOutcome.ok s' sl →
      DFSReach s'

/-- Invariant of reachable `rate_limiter.py` states at clock bound `t`:
positive configuration, at most `max_requests` stored entries, entries sorted
in insertion order, and no entry after `t`. -/
def goodState (s : LimiterState) (t : ℚ) : Prop :=
  0 < s.maxRequests ∧ 0 < s.timeWindow ∧
    (s.requests.length : ℤ) ≤ s.maxRequests ∧
    s.requests.Sorted (· ≤ ·) ∧
    ∀ x ∈ s.requests, x ≤ t

lemma pyMin_mem : ∀ {l : List ℚ} {m : ℚ}, pyMin l = some m → m ∈ l
  | [], m, h => by simp [pyMin] at h
  | x :: xs, m, h => by
    simp only [pyMin] at h
    cases hx : pyMin xs with
    | none =>
      rw [hx, Option.some.injEq] at h
      exact h ▸ List.mem_cons_self x xs
    | some m' =>
      rw [hx, Option.some.injEq] at h
      rcases min_choice x m' with hmin | hmin
      · rw [← h, hmin]; exact List.mem_cons_self x xs
      · rw [← h, hmin]; exact List.mem_cons_of_mem x (pyMin_mem hx)

lemma pyMin_of_sorted {l : List ℚ} (h : l.Sorted (· ≤ ·)) : pyMin l = l.head? := by
  cases l with
  | nil => rfl
  | cons x xs =>
    rw [List.sorted_cons] at h
    obtain ⟨hxall, _⟩ := h
    simp only [pyMin, List.head?]
    cases hx : pyMin xs with
    | none => rfl
    | some m => simp [min_eq_left (hxall m (pyMin_mem hx))]

lemma goodState_acquire {s : LimiterState} {t now now2 : ℚ} {s' : LimiterState}
    {sl : Option ℚ} (hg : goodState s t) (ht : t ≤ now) (hnn : now ≤ now2)
    (hsl : ∀ d, sl = some d → now + d ≤ now2)
    (hacq : RateLimiter.acquire s now now2 = AcqOutcome.ok s' sl) :
    goodState s' now2 := by
  obtain ⟨hm, hw, hlen, hsort, hub⟩ := hg
  simp only [RateLimiter.acquire] at hacq
  rw [if_neg (not_le.mpr hm)] at hacq
  set pruned := s.requests.filter (fun x => decide (now - (s.timeWindow : ℚ) < x)) with hpr
  have hplen : pruned.length ≤ s.requests.length := List.length_filter_le _ _
  have hpsort : pruned.Sorted (· ≤ ·) := hsort.filter _
  have hpmem : ∀ x ∈ pruned, x ∈ s.requests := fun x hx => (List.mem_filter.mp hx).1
  have hpub : ∀ x ∈ pruned, x ≤ now := fun x hx => le_trans (hub x (hpmem x hx)) ht
  split at hacq
  · -- at capacity: max_requests ≤ pruned length
    rename_i hcap
    split at hacq
    · exact AcqOutcome.noConfusion hacq
    · rename_i oldest hhd
      have holdp : oldest ∈ pruned := List.mem_of_mem_head? hhd
      split at hacq
      · -- positive sleep_time: sleeps, re-prunes with the refreshed clock, appends
        rename_i hslt
        rw [AcqOutcome.ok.injEq] at hacq
        obtain ⟨hs', hsl'⟩ := hacq
        subst hs'
        have hwake : now + ((s.timeWindow : ℚ) - (now - oldest)) ≤ now2 := hsl _ hsl'.symm
        have hcut2 : oldest ≤ now2 - (s.timeWindow : ℚ) := by linarith
        have hdrop : (pruned.filter (fun x => decide (now2 - (s.timeWindow : ℚ) < x))).length
            < pruned.length := by
          refine List.length_filter_lt_length_iff_exists.mpr ⟨oldest, holdp, ?_⟩
          simp only [decide_eq_true_eq, not_lt]
          exact hcut2
        refine ⟨hm, hw, ?_, ?_, ?_⟩
        · simp only [List.length_append, List.length_singleton]
          push_cast
          omega
        · refine List.pairwise_append.mpr ⟨hpsort.filter _, List.sorted_singleton now2, ?_⟩
          intro a ha b hb
          rw [List.mem_singleton] at hb
          rw [hb]
          exact le_trans (hpub a (List.mem_of_mem_filter ha)) hnn
        · intro x hx
          rcases List.mem_append.mp hx with hx | hx
          · exact le_trans (hpub x (List.mem_of_mem_filter hx)) hnn
          · rw [List.mem_singleton] at hx; rw [hx]
      · -- sleep_time ≤ 0 is impossible: the head survived the prune
        rename_i hnslt
        have := (List.mem_filter.mp holdp).2
        have hlt : now - (s.timeWindow : ℚ) < oldest := of_decide_eq_true this
        exact absurd (by linarith : (0:ℚ) < (s.timeWindow : ℚ) - (now - oldest)) hnslt
  · -- below capacity: append and return
    rename_i hncap
    rw [AcqOutcome.ok.injEq] at hacq
    obtain ⟨hs', hsl'⟩ := hacq
    subst hs'
    rw [not_le] at hncap
    refine ⟨hm, hw, ?_, ?_, ?_⟩
    · simp only [List.length_append, List.length_singleton]
      push_cast
      omega
    · refine List.pairwise_append.mpr ⟨hpsort, List.sorted_singleton now, ?_⟩
      intro a ha b hb
      rw [List.mem_singleton] at hb
      subst hb
      exact hpub a ha
    · intro x hx
      rcases List.mem_append.mp hx with hx | hx
      · exact le_trans (hpub x hx) hnn
      · rw [List.mem_singleton] at hx; subst hx; exact hnn

lemma rlreach_good {s : LimiterState} {t : ℚ} (h : RLReach s t) : goodState s t := by
  induction h with
  | init m w t0 hm hw => exact ⟨hm, hw, by simpa using hm.le, List.sorted_nil, by simp⟩
  | step s t now now2 s' sl hr ht hnn hsl hacq ih =>
    exact goodState_acquire ih ht hnn hsl hacq

lemma dfsreach_bound {s : LimiterState} (h : DFSReach s) :
    0 < s.maxRequests ∧ (s.requests.length : ℤ) ≤ s.maxRequests := by
  induction h with
  | init m w hm hw => exact ⟨hm, by simpa using hm.le⟩
  | step s now s' sl hr hacq ih =>
    obtain ⟨hm, hlen⟩ := ih
    simp only [ClientLimiter.acquire] at hacq
    split at hacq
    · rename_i hcap
      split at hacq
      · exact AcqOutcome.noConfusion hacq
      · rename_i oldest hmin
        split at hacq
        · exact AcqOutcome.noConfusion hacq
        · rename_i hwt
          have hom := pyMin_mem hmin
          have hlt : now - oldest < (s.timeWindow : ℚ) :=
            of_decide_eq_true (List.mem_filter.mp hom).2
          exact absurd (by linarith : (0:ℚ) < (s.timeWindow : ℚ) - (now - oldest)) hwt
    · rename_i hncap
      rw [AcqOutcome.ok.injEq] at hacq
      obtain ⟨hs', hsl'⟩ := hacq
      subst hs'
      rw [not_le] at hncap
      refine ⟨hm, ?_⟩
      simp only [List.length_append, List.length_singleton]
      push_cast
      omega

lemma filter_window_congr (s : LimiterState) (now : ℚ) :
    (s.requests.filter fun t => decide (now - (s.timeWindow : ℚ) < t))
      = s.requests.filter fun t => decide (now - t < (s.timeWindow : ℚ)) := by
  refine List.filter_congr ?_
  intro x _
  simp only [decide_eq_decide]
  exact sub_lt_comm

lemma rl_acquire_fast {s : LimiterState} {now now2 : ℚ}
    (h : ((s.requests.filter fun t => decide (now - (s.timeWindow : ℚ) < t)).length : ℤ)
      < s.maxRequests) :
    RateLimiter.acquire s now now2 =
      AcqOutcome.ok
        ⟨s.maxRequests, s.timeWindow,
          (s.requests.filter fun t => decide (now - (s.timeWindow : ℚ) < t)) ++ [now]⟩ none := by
  have hm : 0 < s.maxRequests := lt_of_le_of_lt (Int.natCast_nonneg _) h
  simp only [RateLimiter.acquire]
  rw [if_neg (not_le.mpr hm), if_neg (not_le.mpr h)]

lemma dfs_acquire_fast {s : LimiterState} {now : ℚ}
    (h : ((s.requests.filter fun t => decide (now - t < (s.timeWindow : ℚ))).length : ℤ)
      < s.maxRequests) :
    ClientLimiter.acquire s now =
      AcqOutcome.ok
        ⟨s.maxRequests, s.timeWindow,
          (s.requests.filter fun t => decide (now - t < (s.timeWindow : ℚ))) ++ [now]⟩ none := by
  simp only [ClientLimiter.acquire]
  rw [if_neg (not_le.mpr h)]

/-- Claim C1 (confirmed): budget invariant.  On every limiter state reachable
from a validly constructed instance (both configuration values positive) by any
sequence of completed `acquire()` calls — in either implementation — and at any
instant `now`, the number of timestamps of the request log lying within the
trailing `time_window` of `now` never exceeds `max_requests`.  (Each admitted
call appends its own timestamp and pruning only removes entries already outside
every later trailing window, so this is also the bound on admitted calls per
trailing window.) -/
theorem C1_budget_invariant :
    (∀ (s : LimiterState) (t : ℚ), RLReach s t →
        ∀ now : ℚ, ((withinWindow s now).length : ℤ) ≤ s.maxRequests) ∧
    (∀ s : LimiterState, DFSReach s →
        ∀ now : ℚ, ((withinWindow s now).length : ℤ) ≤ s.maxRequests) := by
  constructor
  · intro s t h now
    obtain ⟨-, -, hlen, -, -⟩ := rlreach_good h
    calc ((withinWindow s now).length : ℤ) ≤ (s.requests.length : ℤ) := by
          exact_mod_cast List.length_filter_le _ _
      _ ≤ s.maxRequests := hlen
  · intro s h now
    obtain ⟨-, hlen⟩ := dfsreach_bound h
    calc ((withinWindow s now).length : ℤ) ≤ (s.requests.length : ℤ) := by
          exact_mod_cast List.length_filter_le _ _
      _ ≤ s.maxRequests := hlen

/-- Witness for C1: both bounds at the concrete state `⟨1, 60, [0]⟩` reached
by one admitted `acquire()` call at clock 0 on a limiter built with
`max_requests = 1`, `time_window = 60`. -/
theorem C1_budget_invariant_witness :
    ((withinWindow ⟨1, 60, [0]⟩ 30).length : ℤ) ≤ 1 ∧
    ((withinWindow ⟨1, 60, [0]⟩ 0).length : ℤ) ≤ 1 := by
  constructor
  · refine C1_budget_invariant.1 ⟨1, 60, [0]⟩ 0 ?_ 30
    refine RLReach.step ⟨1, 60, []⟩ 0 0 0 ⟨1, 60, [0]⟩ none
      (RLReach.init 1 60 0 (by norm_num) (by norm_num)) le_rfl le_rfl
      (fun d hd => Option.noConfusion hd) ?_
    norm_num [RateLimiter.acquire, List.filter]
  · refine C1_budget_invariant.2 ⟨1, 60, [0]⟩ ?_ 0
    refine DFSReach.step ⟨1, 60, []⟩ 0 ⟨1, 60, [0]⟩ none
      (DFSReach.init 1 60 (by norm_num) (by norm_num)) ?_
    norm_num [ClientLimiter.acquire, List.filter]

/-- Claim C2 (code evaluation at the failing input): constructing with
`max_requests = 0` succeeds in both implementations and leaves an empty request
log — `rate_limiter.py` builds a zero-permit semaphore without raising, and
`dataforseo_client.py` validates nothing — so no `InvalidConfiguration` (a
class that exists nowhere in the source) is raised before `acquire()` becomes
callable.  Likewise `time_window = -1` is accepted; only a negative
`max_requests` raises at all (a `ValueError` from `asyncio.Semaphore`, in
`rate_limiter.py` only). -/
theorem C2_construction_unvalidated :
    RateLimiter.init 0 60 = InitResult.ok ⟨0, 60, []⟩ ∧
    ClientLimiter.init 0 60 = ⟨0, 60, []⟩ ∧
    RateLimiter.init 5 (-1) = InitResult.ok ⟨5, -1, []⟩ ∧
    ClientLimiter.init 5 (-1) = ⟨5, -1, []⟩ ∧
    RateLimiter.init (-1) 60 = InitResult.valueError := by
  refine ⟨by decide, rfl, by decide, rfl, by decide⟩

/-- Claim C3 (code evaluation at the failing input): at the at-capacity input
(`max_requests = 1`, `time_window = 60`, log `[0]`, entry clock 30, wake clock
60) the `acquire()` of `rate_limiter.py` reaches its `asyncio.sleep` as the
fourth event of its trace, and the three events preceding the sleep leave the
lock depth of `self._lock` at 1: the task sleeps while still holding the
mutual-exclusion lock on the request log (only the semaphore was released). -/
theorem C3_sleeps_holding_lock :
    RateLimiter.acquireTrace ⟨1, 60, [0]⟩ 30 60 =
      [RLEvent.semAcquire, RLEvent.lockAcquire, RLEvent.semRelease, RLEvent.sleep 30,
       RLEvent.semAcquire, RLEvent.append 60, RLEvent.lockRelease, RLEvent.semRelease] ∧
    lockDepth ((RateLimiter.acquireTrace ⟨1, 60, [0]⟩ 30 60).take 3) = 1 := by
  have h1 : RateLimiter.acquireTrace ⟨1, 60, [0]⟩ 30 60 =
      [RLEvent.semAcquire, RLEvent.lockAcquire, RLEvent.semRelease, RLEvent.sleep 30,
       RLEvent.semAcquire, RLEvent.append 60, RLEvent.lockRelease, RLEvent.semRelease] := by
    norm_num [RateLimiter.acquireTrace, List.filter]
  refine ⟨h1, ?_⟩
  rw [h1]
  decide

/-- Claim C4 (confirmed): zero-wait fast path.  Whenever the log pruned at the
entry clock `now` has fewer than `max_requests` entries, `acquire()` of either
implementation returns the pruned log with `now` appended and did not sleep
(`slept = none`). -/
theorem C4_fast_path (s : LimiterState) (now now2 : ℚ)
    (h : ((s.requests.filter fun t => decide (now - (s.timeWindow : ℚ) < t)).length : ℤ)
      < s.maxRequests) :
    RateLimiter.acquire s now now2 =
      AcqOutcome.ok ⟨s.maxRequests, s.timeWindow,
        (s.requests.filter fun t => decide (now - (s.timeWindow : ℚ) < t)) ++ [now]⟩ none ∧
    ClientLimiter.acquire s now =
      AcqOutcome.ok ⟨s.maxRequests, s.timeWindow,
        (s.requests.filter fun t => decide (now - t < (s.timeWindow : ℚ))) ++ [now]⟩ none := by
  refine ⟨rl_acquire_fast h, dfs_acquire_fast ?_⟩
  rw [← filter_window_congr]
  exact h

/-- Witness for C4 at `max_requests = 3`, `time_window = 60`, log `[0]`,
clock 10: one in-window entry, so both implementations admit immediately. -/
theorem C4_fast_path_witness :
    RateLimiter.acquire ⟨3, 60, [0]⟩ 10 10 = AcqOutcome.ok ⟨3, 60, [0, 10]⟩ none ∧
    ClientLimiter.acquire ⟨3, 60, [0]⟩ 10 = AcqOutcome.ok ⟨3, 60, [0, 10]⟩ none := by
  obtain ⟨h1, h2⟩ := C4_fast_path ⟨3, 60, [0]⟩ 10 10 (by norm_num [List.filter])
  constructor
  · rw [h1]; norm_num [List.filter]
  · rw [h2]; norm_num [List.filter]

/-- The next-slot duration as worded by the spec, for comparison with the
code's `get_time_until_next_slot`: 0 when the current in-window usage is below
`max_requests`, otherwise `time_window - (now - oldest_entry_within_window)`
clamped to be nonnegative (0 also on the vacuous empty-window branch, which is
unreachable when the usage reaches a positive `max_requests`). -/
def specNextSlot (s : LimiterState) (now : ℚ) : ℚ :=
  if ((withinWindow s now).length : ℤ) < s.maxRequests then 0
  else
    match pyMin (withinWindow s now) with
    | none => 0
    | some oldest => max 0 ((s.timeWindow : ℚ) - (now - oldest))

/-- Claim C5 (confirmed): on every reachable state of the `rate_limiter.py`
limiter, `get_time_until_next_slot` returns (without raising) exactly the
spec's value — 0 when the in-window usage is below `max_requests`, otherwise
`time_window - (now - oldest_entry_within_window)` clamped to ≥ 0 — and that
value is never negative.  The code compares the raw stored log length and uses
`self.requests[0]`, but on reachable states (log sorted, at most `max_requests`
entries) this coincides with the spec's description. -/
theorem C5_next_slot (s : LimiterState) (t : ℚ) (h : RLReach s t) (now : ℚ) :
    RateLimiter.get_time_until_next_slot s now = some (specNextSlot s now) ∧
    0 ≤ specNextSlot s now := by
  obtain ⟨hm, hw, hlen, hsort, -⟩ := rlreach_good h
  have hnonneg : 0 ≤ specNextSlot s now := by
    simp only [specNextSlot]
    split
    · exact le_refl 0
    · split
      · exact le_refl 0
      · exact le_max_left _ _
  refine ⟨?_, hnonneg⟩
  rcases lt_or_le (s.requests.length : ℤ) s.maxRequests with hc | hc
  · have husage : ((withinWindow s now).length : ℤ) < s.maxRequests :=
      lt_of_le_of_lt (by exact_mod_cast List.length_filter_le _ _) hc
    simp only [RateLimiter.get_time_until_next_slot, specNextSlot]
    rw [if_pos hc, if_pos husage]
  · have hlen_eq : (s.requests.length : ℤ) = s.maxRequests := le_antisymm hlen hc
    have hne : s.requests ≠ [] := by
      intro hnil
      rw [hnil] at hlen_eq
      simp only [List.length_nil, Nat.cast_zero] at hlen_eq
      omega
    obtain ⟨hd, tl, hcons⟩ := List.exists_cons_of_ne_nil hne
    have hhd : s.requests.head? = some hd := by rw [hcons]; rfl
    have hhd_le : ∀ x ∈ s.requests, hd ≤ x := by
      intro x hx
      rw [hcons] at hx
      rcases List.mem_cons.mp hx with hx | hx
      · rw [hx]
      · have hs := hsort
        rw [hcons, List.sorted_cons] at hs
        exact hs.1 x hx
    simp only [RateLimiter.get_time_until_next_slot]
    rw [if_neg (not_lt.mpr hc), hhd]
    show some (max 0 ((s.timeWindow : ℚ) - (now - hd))) = some (specNextSlot s now)
    rcases lt_or_le ((withinWindow s now).length : ℤ) s.maxRequests with husage | husage
    · -- some stored entry is stale, so the sorted head is stale and both sides are 0
      have hlt : (withinWindow s now).length < s.requests.length := by
        have hz : ((withinWindow s now).length : ℤ) < (s.requests.length : ℤ) := by
          rw [hlen_eq]; exact husage
        exact_mod_cast hz
      simp only [withinWindow] at hlt
      obtain ⟨x, hxmem, hxstale⟩ := List.length_filter_lt_length_iff_exists.mp hlt
      simp only [decide_eq_true_eq] at hxstale
      have hxle : x ≤ now - (s.timeWindow : ℚ) := not_lt.mp hxstale
      have hhdle : hd ≤ now - (s.timeWindow : ℚ) := le_trans (hhd_le x hxmem) hxle
      simp only [specNextSlot]
      rw [if_pos husage, max_eq_left (by linarith)]
    · -- the whole stored log is inside the window
      have hgelen : s.requests.length ≤ (withinWindow s now).length := by
        have hz : (s.requests.length : ℤ) ≤ ((withinWindow s now).length : ℤ) := by
          rw [hlen_eq]; exact husage
        exact_mod_cast hz
      have heq : withinWindow s now = s.requests :=
        (List.filter_sublist _).eq_of_length
          (le_antisymm (List.length_filter_le _ _) hgelen)
      simp only [specNextSlot]
      rw [if_neg (not_lt.mpr husage), heq, pyMin_of_sorted hsort, hhd]

/-- Witness for C5 at the concrete reachable state `⟨1, 60, [0]⟩` (one
admitted call at clock 0), queried at clock 30. -/
theorem C5_next_slot_witness :
    RateLimiter.get_time_until_next_slot ⟨1, 60, [0]⟩ 30
        = some (specNextSlot ⟨1, 60, [0]⟩ 30) ∧
    0 ≤ specNextSlot ⟨1, 60, [0]⟩ 30 := by
  refine C5_next_slot ⟨1, 60, [0]⟩ 0 ?_ 30
  refine RLReach.step ⟨1, 60, []⟩ 0 0 0 ⟨1, 60, [0]⟩ none
    (RLReach.init 1 60 0 (by norm_num) (by norm_num)) le_rfl le_rfl
    (fun d hd => Option.noConfusion hd) ?_
  norm_num [RateLimiter.acquire, List.filter]

/-- Counterexample to claim C6 as stated: at `max_requests = 1`,
`time_window = 10`, log `[5, 6]`, entry clock 7 and wake clock 15, the
`acquire()` of `rate_limiter.py` sleeps (8 seconds) and, after waking, the log
re-pruned at the refreshed clock (`[5, 6]` filtered by cutoff `15 - 10`) still
has `max_requests` entries — the admission condition fails — yet the call
appends its timestamp and returns, leaving 2 > `max_requests` entries inside
the trailing window: after the sleep the code never compares the re-pruned
size against `max_requests`, so it does not retry from step 1. -/
theorem C6_counterexample :
    RateLimiter.acquire ⟨1, 10, [5, 6]⟩ 7 15 = AcqOutcome.ok ⟨1, 10, [6, 15]⟩ (some 8) ∧
    (1 : ℤ) ≤ ((([5, 6] : List ℚ).filter fun t => decide ((15 : ℚ) - 10 < t)).length : ℤ) ∧
    ((withinWindow ⟨1, 10, [6, 15]⟩ 15).length : ℤ) = 2 := by
  refine ⟨?_, ?_, ?_⟩ <;> norm_num [RateLimiter.acquire, withinWindow, List.filter]

/-- Claim C6 amended (proved): after waking from its sleep, the `acquire()` of
`rate_limiter.py` re-prunes with the refreshed clock and then appends its
timestamp unconditionally, without re-comparing the pruned size against
`max_requests`; when the call starts from a log with at most `max_requests`
entries and the sleep lasted at least the computed `sleep_time` (as
`asyncio.sleep` guarantees), the post-wake prune alone already removed the
oldest entry, so the appended log still has at most `max_requests` entries and
the budget is respected.  (The `dataforseo_client.py` variant does retry from
step 1, but only after deadlocking on its own lock — see C9.) -/
theorem C6_amended (s : LimiterState) (now now2 d : ℚ) (s' : LimiterState)
    (hlen : (s.requests.length : ℤ) ≤ s.maxRequests)
    (hacq : RateLimiter.acquire s now now2 = AcqOutcome.ok s' (some d))
    (hwake : now + d ≤ now2) :
    s'.requests =
      ((s.requests.filter fun x => decide (now - (s.timeWindow : ℚ) < x)).filter
        fun x => decide (now2 - (s.timeWindow : ℚ) < x)) ++ [now2] ∧
    (s'.requests.length : ℤ) ≤ s.maxRequests ∧
    ((withinWindow s' now2).length : ℤ) ≤ s.maxRequests := by
  simp only [RateLimiter.acquire] at hacq
  split at hacq
  · exact AcqOutcome.noConfusion hacq
  · split at hacq
    · -- at capacity
      rename_i hcap
      split at hacq
      · exact AcqOutcome.noConfusion hacq
      · rename_i oldest hhd
        split at hacq
        · -- positive sleep_time: the branch that actually slept
          rename_i hslt
          rw [AcqOutcome.ok.injEq, Option.some.injEq] at hacq
          obtain ⟨hs', hd'⟩ := hacq
          have holdp : oldest ∈
              s.requests.filter (fun x => decide (now - (s.timeWindow : ℚ) < x)) :=
            List.mem_of_mem_head? hhd
          have hcut2 : oldest ≤ now2 - (s.timeWindow : ℚ) := by
            rw [← hd'] at hwake
            linarith
          have hdrop :
              ((s.requests.filter fun x => decide (now - (s.timeWindow : ℚ) < x)).filter
                (fun x => decide (now2 - (s.timeWindow : ℚ) < x))).length
                < (s.requests.filter fun x => decide (now - (s.timeWindow : ℚ) < x)).length := by
            refine List.length_filter_lt_length_iff_exists.mpr ⟨oldest, holdp, ?_⟩
            simp only [decide_eq_true_eq, not_lt]
            exact hcut2
          have hple : (s.requests.filter fun x =>
              decide (now - (s.timeWindow : ℚ) < x)).length ≤ s.requests.length :=
            List.length_filter_le _ _
          refine ⟨by rw [← hs'], ?_, ?_⟩
          · rw [← hs']
            simp only [List.length_append, List.length_singleton]
            push_cast
            omega
          · have hsub : ((withinWindow s' now2).length : ℤ) ≤ (s'.requests.length : ℤ) := by
              exact_mod_cast List.length_filter_le _ _
            refine le_trans hsub ?_
            rw [← hs']
            simp only [List.length_append, List.length_singleton]
            push_cast
            omega
        · -- sleep_time ≤ 0: the call does not sleep, contradicting `some d`
          rw [AcqOutcome.ok.injEq] at hacq
          exact Option.noConfusion hacq.2
    · -- below capacity: the call does not sleep, contradicting `some d`
      rw [AcqOutcome.ok.injEq] at hacq
      exact Option.noConfusion hacq.2

/-- Witness for C6 amended at `max_requests = 1`, `time_window = 10`,
log `[0]`, entry clock 5, sleep 5, wake clock 10. -/
theorem C6_amended_witness :
    (LimiterState.mk 1 10 [10]).requests =
      ((([0] : List ℚ).filter fun x => decide ((5 : ℚ) - ((10 : ℤ) : ℚ) < x)).filter
        fun x => decide ((10 : ℚ) - ((10 : ℤ) : ℚ) < x)) ++ [10] ∧
    ((LimiterState.mk 1 10 [10]).requests.length : ℤ) ≤ 1 ∧
    ((withinWindow ⟨1, 10, [10]⟩ 10).length : ℤ) ≤ 1 :=
  C6_amended ⟨1, 10, [0]⟩ 5 10 5 ⟨1, 10, [10]⟩ (by norm_num)
    (by norm_num [RateLimiter.acquire, List.filter]) (by norm_num)

/-- Claim C7 (confirmed): on every reachable state of the `rate_limiter.py`
limiter, `get_current_usage` returns exactly the number of stored timestamps
whose age relative to `now` is strictly less than `time_window`, and this
value lies in `[0, max_requests]`. -/
theorem C7_current_usage (s : LimiterState) (t : ℚ) (h : RLReach s t) (now : ℚ) :
    RateLimiter.get_current_usage s now
        = ((s.requests.filter fun x => decide (now - x < (s.timeWindow : ℚ))).length : ℤ) ∧
    0 ≤ RateLimiter.get_current_usage s now ∧
    RateLimiter.get_current_usage s now ≤ s.maxRequests := by
  obtain ⟨-, -, hlen, -, -⟩ := rlreach_good h
  refine ⟨?_, Int.natCast_nonneg _, ?_⟩
  · simp only [RateLimiter.get_current_usage]
    rw [filter_window_congr]
  · calc RateLimiter.get_current_usage s now ≤ (s.requests.length : ℤ) := by
          simp only [RateLimiter.get_current_usage]
          exact_mod_cast List.length_filter_le _ _
      _ ≤ s.maxRequests := hlen

/-- Witness for C7 at the concrete reachable state `⟨1, 60, [0]⟩` (one
admitted call at clock 0), queried at clock 30. -/
theorem C7_current_usage_witness :
    RateLimiter.get_current_usage ⟨1, 60, [0]⟩ 30
        = ((([0] : List ℚ).filter fun x => decide ((30 : ℚ) - x < ((60 : ℤ) : ℚ))).length : ℤ) ∧
    0 ≤ RateLimiter.get_current_usage ⟨1, 60, [0]⟩ 30 ∧
    RateLimiter.get_current_usage ⟨1, 60, [0]⟩ 30 ≤ 1 := by
  refine C7_current_usage ⟨1, 60, [0]⟩ 0 ?_ 30
  refine RLReach.step ⟨1, 60, []⟩ 0 0 0 ⟨1, 60, [0]⟩ none
    (RLReach.init 1 60 0 (by norm_num) (by norm_num)) le_rfl le_rfl
    (fun d hd => Option.noConfusion hd) ?_
  norm_num [RateLimiter.acquire, List.filter]

/-- Claim C8 (confirmed): the introspection methods of `rate_limiter.py` do
not mutate the limiter.  Both method bodies only read `self` (binding their
intermediate list to a local variable) and perform no assignment to any field,
so the state each call leaves behind is the unchanged receiver: request log,
`max_requests` and `time_window` are exactly as before the call. -/
theorem C8_introspection_pure (s : LimiterState) (now : ℚ) :
    (RateLimiter.get_current_usage_run s now).2 = s ∧
    (RateLimiter.get_time_until_next_slot_run s now).2 = s :=
  ⟨rfl, rfl⟩

/-- Counterexample to claim C9 as stated: the two `acquire()` implementations
are not observationally equivalent.  From identically configured instances
(`max_requests = 1`, `time_window = 60`), both admit the first call at clock 0
identically, reaching the common state `⟨1, 60, [0]⟩`; but on the second call
at clock 30 the semaphore variant of `rate_limiter.py` sleeps 30 seconds and
then admits (log `[60]`), while the plain-lock variant of
`dataforseo_client.py` sleeps and then recursively awaits the non-reentrant
lock its own task still holds, never returning. -/
theorem C9_counterexample :
    RateLimiter.acquire ⟨1, 60, []⟩ 0 0 = AcqOutcome.ok ⟨1, 60, [0]⟩ none ∧
    ClientLimiter.acquire ⟨1, 60, []⟩ 0 = AcqOutcome.ok ⟨1, 60, [0]⟩ none ∧
    RateLimiter.acquire ⟨1, 60, [0]⟩ 30 60 = AcqOutcome.ok ⟨1, 60, [60]⟩ (some 30) ∧
    ClientLimiter.acquire ⟨1, 60, [0]⟩ 30 = AcqOutcome.blocked := by
  refine ⟨?_, ?_, ?_, ?_⟩ <;>
    norm_num [RateLimiter.acquire, ClientLimiter.acquire, pyMin, List.filter]

/-- Claim C9 amended (proved): the two implementations agree on the fast path.
Whenever the log pruned at the entry clock has fewer than `max_requests`
entries, the two `acquire()` embeddings return identical outcomes (same
resulting state, no sleep); they diverge only at capacity (see the
counterexample) and on a `max_requests = 0` instance (semaphore blocks versus
`ValueError`, see C10). -/
theorem C9_amended (s : LimiterState) (now now2 : ℚ)
    (h : ((s.requests.filter fun t => decide (now - (s.timeWindow : ℚ) < t)).length : ℤ)
      < s.maxRequests) :
    RateLimiter.acquire s now now2 = ClientLimiter.acquire s now := by
  rw [rl_acquire_fast h, dfs_acquire_fast (by rw [← filter_window_congr]; exact h),
    filter_window_congr]

/-- Witness for C9 amended at `max_requests = 2`, `time_window = 60`,
log `[0]`, clock 10. -/
theorem C9_amended_witness :
    RateLimiter.acquire ⟨2, 60, [0]⟩ 10 10 = ClientLimiter.acquire ⟨2, 60, [0]⟩ 10 :=
  C9_amended ⟨2, 60, [0]⟩ 10 10 (by norm_num [List.filter])

/-- Claim C10 (confirmed): constructing the `dataforseo_client.py` limiter
with `max_requests = 0` succeeds without error (the spec's construction-time
precondition is not enforced), and the first subsequent `acquire()` call — on
the empty request log — takes the at-capacity branch (`0 ≥ max_requests`) and
evaluates `min(self.requests)` on the empty list, raising a `ValueError`
instead of blocking or admitting, for every window value and every clock. -/
theorem C10_zero_limit_client (w : ℤ) (now : ℚ) :
    ClientLimiter.init 0 w = ⟨0, w, []⟩ ∧
    ClientLimiter.acquire ⟨0, w, []⟩ now = AcqOutcome.raised := by
  refine ⟨rfl, ?_⟩
  simp [ClientLimiter.acquire, pyMin]
